import Mathlib

/-!
# Verification of the convex-py native bridge

Shallow embedding of the Rust sources of the `convex-py` native extension:

* `src/query_result.rs` — the marshaller between host (Python) values and
  `convex::Value` (`value_to_py`, `py_to_value`, `value_to_py_wrapped`,
  `convex_error_to_py_wrapped`);
* `src/subscription.rs` — `PyQuerySubscription` / `PyQuerySetSubscription`
  (slot discipline, `next`, `anext`, `unsubscribe`, `exists`, `id`);
* `src/client/mod.rs` — `PyConvexClient` one-shot calls, `BTreeMapWrapper`
  argument marshalling, `set_auth` / `set_admin_auth`.

Modelling conventions:

* Python's dynamic values are modelled by the inductive `PyObjectVal`.
  Python's `bool` is a subclass of `int`, but the Rust code tests
  `is_instance_of::<PyBool>` before `is_instance_of::<PyInt>`, so the two
  never overlap in behaviour; the model therefore gives them disjoint
  constructors.  The wrapper class `ConvexInt64` lives in the Python half of
  the package (module `_convex.int64`, not among the Rust sources); per the
  spec it is a structurally recognised wrapper holding a 64-bit integer and
  is *not* an `int` subclass, so it too gets its own constructor.
* `f64` is modelled by `ℚ`.  The claims evaluate float conversions only at
  small integers (exactly representable in `f64`), so no rounding is modelled;
  `extract::<f64>()` from a Python float is exact.
* Rust `i64` is modelled by `Int` together with the explicit range check that
  `extract::<i64>()` performs on the wrapper's `value` attribute.
* `BTreeMap<String, Value>` is modelled as a strictly-key-sorted association
  list; `insert` is `btreeInsert`.  Rust orders `String` by UTF-8 bytes,
  which coincides with code-point order, i.e. with Lean's `String` order.
* Fallible Rust/pyo3 code (`PyResult`) is modelled with `Except PyErr`.
-/

/-- Python-level errors (`PyErr`) that the bridge produces. -/
inductive PyErr where
  /-- `PyException::new_err msg`. -/
  | exception (msg : String)
  /-- `PyStopIteration::new_err msg`. -/
  | stopIteration (msg : String)
  /-- `PyStopAsyncIteration::new_err msg`. -/
  | stopAsyncIteration (msg : String)
  /-- The error returned by `py.check_signals()` when a signal (for instance
  `KeyboardInterrupt`) is pending: the signal-poller branch of the
  `tokio::select!` race won. -/
  | interrupted
  deriving DecidableEq

/-- The `convex::Value` enum as used by this crate: the exhaustive `match` in
`value_to_py` shows it has exactly these eight variants (no `Set`/`Map`).
`Object` holds a `BTreeMap<String, Value>`, modelled as a strictly-key-sorted
association list. -/
inductive Value where
  | null
  | int64 (n : Int)
  | float64 (q : ℚ)
  | boolean (b : Bool)
  | string (s : String)
  | bytes (bs : List Nat)
  | array (xs : List Value)
  | object (fields : List (String × Value))

/-- Host (Python) dynamic values as far as the bridge can observe them.
`tuple` stands in for any host object matching none of the `isinstance`
checks of `py_to_value` (tuples, sets, custom classes, ...). -/
inductive PyObjectVal where
  | none
  | bool (b : Bool)
  | int (n : Int)
  | float (q : ℚ)
  /-- An instance of the Python wrapper class `_convex.int64.ConvexInt64`
  whose `value` attribute is the integer `n`. -/
  | convexInt64 (n : Int)
  | string (s : String)
  | bytes (bs : List Nat)
  | list (xs : List PyObjectVal)
  /-- A Python dict: an insertion-ordered sequence of key/value pairs. -/
  | dict (entries : List (PyObjectVal × PyObjectVal))
  | tuple (xs : List PyObjectVal)

/-- `int as f64` / `extract::<f64>()` on a Python int.  Exact on every input
the development evaluates it at (small integers). -/
def intToF64 (n : Int) : ℚ := (n : ℚ)

/-- The `i64` range check performed by `extract::<i64>()`. -/
def inI64Range (n : Int) : Bool := decide (-(2 ^ 63) ≤ n) && decide (n < 2 ^ 63)

/-- Simplified Python `repr`/Rust `Debug` rendering of a host value, used in
the error messages of `py_to_value` (the exact text is host-side and outside
the Rust sources; only its presence matters). -/
def pyRepr : PyObjectVal → String
  | .none => "None"
  | .bool true => "True"
  | .bool false => "False"
  | .int n => toString n
  | .float q => toString q
  | .convexInt64 n => "ConvexInt64(" ++ toString n ++ ")"
  | .string s => "'" ++ s ++ "'"
  | .bytes _ => "b'...'"
  | .list _ => "[...]"
  | .dict _ => "\x7b...\x7d"
  | .tuple _ => "(...)"

/-- Python type name of a host value (`py_val.get_type()`). -/
def pyTypeName : PyObjectVal → String
  | .none => "NoneType"
  | .bool _ => "bool"
  | .int _ => "int"
  | .float _ => "float"
  | .convexInt64 _ => "ConvexInt64"
  | .string _ => "str"
  | .bytes _ => "bytes"
  | .list _ => "list"
  | .dict _ => "dict"
  | .tuple _ => "tuple"

/-- Lexicographic order on char lists by code point.  Rust orders `String` by
UTF-8 bytes, which coincides with code-point lexicographic order. -/
def listCharLt : List Char → List Char → Bool
  | [], [] => false
  | [], _ :: _ => true
  | _ :: _, [] => false
  | a :: as, b :: bs =>
    if a.toNat < b.toNat then true
    else if b.toNat < a.toNat then false
    else listCharLt as bs

/-- The `Ord`-order on Rust `String` used by `BTreeMap<String, _>`. -/
def strLt (a b : String) : Bool := listCharLt a.data b.data

/-- `BTreeMap::insert` on the sorted-association-list model: keeps keys
strictly sorted, replaces the value on an existing key. -/
def btreeInsert (k : String) (v : Value) : List (String × Value) → List (String × Value)
  | [] => [(k, v)]
  | (k', v') :: rest =>
    if strLt k k' then (k, v) :: (k', v') :: rest
    else if strLt k' k then (k', v') :: btreeInsert k v rest
    else (k, v) :: rest

mutual

/-- `value_to_py` (src/query_result.rs lines 45–81): Value → host, one case
per variant.  `Int64` is surfaced as a `ConvexInt64` wrapper object; `Object`
iterates the `BTreeMap` in sorted key order into a fresh dict. -/
def value_to_py : Value → PyObjectVal
  | .null => .none
  | .int64 n => .convexInt64 n
  | .float64 q => .float q
  | .boolean b => .bool b
  | .string s => .string s
  | .bytes bs => .bytes bs
  | .array xs => .list (value_list_to_py xs)
  | .object fields => .dict (object_to_py_entries fields)

/-- The `for item in arr` loop of `value_to_py` on an `Array`. -/
def value_list_to_py : List Value → List PyObjectVal
  | [] => []
  | x :: xs => value_to_py x :: value_list_to_py xs

/-- The `for (key, value) in obj` loop of `value_to_py` on an `Object`. -/
def object_to_py_entries : List (String × Value) → List (PyObjectVal × PyObjectVal)
  | [] => []
  | (k, v) :: fs => (.string k, value_to_py v) :: object_to_py_entries fs

end

mutual

/-- `py_to_value` (src/query_result.rs lines 87–155): host → Value.  The
`isinstance` checks run in order: bool, int (widened to float!), float,
`ConvexInt64` wrapper, str, bytes, list, dict, `None`; anything else fails
with "Failed to serialize to Convex value ...". -/
def py_to_value : PyObjectVal → Except PyErr Value
  | .bool b => .ok (.boolean b)
  | .int n => .ok (.float64 (intToF64 n))
  | .float q => .ok (.float64 q)
  | .convexInt64 n =>
    if inI64Range n then .ok (.int64 n)
    else .error (.exception "OverflowError: int too big to convert")
  | .string s => .ok (.string s)
  | .bytes bs => .ok (.bytes bs)
  | .list xs =>
    match py_list_to_values xs with
    | .ok vs => .ok (.array vs)
    | .error e => .error e
  | .dict es =>
    match py_dict_to_object es [] with
    | .ok fs => .ok (.object fs)
    | .error e => .error e
  | .none => .ok .null
  | .tuple xs =>
    .error (.exception ("Failed to serialize to Convex value " ++ pyRepr (.tuple xs)
      ++ " of type " ++ pyTypeName (.tuple xs)))

/-- The `for item in py_list` loop of `py_to_value` on a list. -/
def py_list_to_values : List PyObjectVal → Except PyErr (List Value)
  | [] => .ok []
  | x :: xs =>
    match py_to_value x with
    | .error e => .error e
    | .ok v =>
      match py_list_to_values xs with
      | .error e => .error e
      | .ok vs => .ok (v :: vs)

/-- The `for (key, value) in py_dict` loop of `py_to_value` on a dict:
converts the value, then the key, requires the converted key to be a
`String`, and inserts into the accumulating `BTreeMap`. -/
def py_dict_to_object :
    List (PyObjectVal × PyObjectVal) → List (String × Value) →
    Except PyErr (List (String × Value))
  | [], acc => .ok acc
  | (k, v) :: es, acc =>
    match py_to_value v with
    | .error e => .error e
    | .ok inner_value =>
      match py_to_value k with
      | .error e => .error e
      | .ok inner_key =>
        match inner_key with
        | .string s => py_dict_to_object es (btreeInsert s inner_value acc)
        | _ => .error (.exception ("Bad key for Convex object: " ++ pyRepr k))

end

/-- `value_to_py_wrapped` (src/query_result.rs lines 26–33): tags a success
value with `"type": "value"`. -/
def value_to_py_wrapped (v : Value) : PyObjectVal :=
  .dict [(.string "type", .string "value"), (.string "value", value_to_py v)]

/-- `convex_error_to_py_wrapped` (src/query_result.rs lines 35–43): tags an
application error with `"type": "convexerror"` and carries `message`/`data`. -/
def convex_error_to_py_wrapped (message : String) (data : Value) : PyObjectVal :=
  .dict [(.string "type", .string "convexerror"),
         (.string "message", .string message),
         (.string "data", value_to_py data)]

/-- `convex::FunctionResult`: the three-way outcome of a remote function
call.  `convexError` carries a `ConvexError { message, data }`. -/
inductive FunctionResult where
  | value (v : Value)
  | errorMessage (e : String)
  | convexError (message : String) (data : Value)

/-- `convex::SubscriberId`: an opaque identity token with equality; modelled
as a natural number. -/
def SubscriberId : Type := Nat

instance : DecidableEq SubscriberId := fun a b => Nat.decEq a b

instance : OfNat SubscriberId n := ⟨(n : Nat)⟩

/-- The underlying `convex::QuerySubscription` cursor: its `SubscriberId` and
the stream of `FunctionResult` items the transport will deliver to it. -/
structure QuerySubscription where
  sub_id : SubscriberId
  stream : List FunctionResult

/-- The slot inside `PyQuerySubscription`: `Arc<Mutex<Option<QuerySubscription>>>`.
`some` = the slot holds the live cursor (the handle is Open); `none` = the
slot is empty (the handle is Unsubscribed, or an advance is in flight). -/
def Slot : Type := Option QuerySubscription

/-- The externally observable handle states of §4.4 of the design:
`open_` holds the live cursor in the slot, `advancing` has temporarily
removed it for an in-flight `next`, `unsubscribed` is terminal. -/
inductive HandleState where
  | open_ (sub : QuerySubscription)
  | advancing (sub : QuerySubscription)
  | unsubscribed

/-- Contents of the `Arc<Mutex<Option<_>>>` slot in each handle state: the
cursor is in the slot only in the Open state. -/
def slotOf : HandleState → Slot
  | .open_ sub => some sub
  | .advancing _ => none
  | .unsubscribed => none

/-- Outcome of a `PyResult<PyObject>`-returning advance, plus the panic case
that `res.unwrap()` can hit when the stream has ended. -/
inductive NextOutcome where
  | yielded (r : PyObjectVal)
  | raised (e : PyErr)
  | panicked

namespace PyQuerySubscription

/-- `PyQuerySubscription::exists` (src/subscription.rs lines 103–105):
`self.inner.lock().is_some()` — a pure read of the slot's occupancy. -/
def exists_ (slot : Slot) : Bool := slot.isSome

/-- Outcome of `PyQuerySubscription::id` (src/subscription.rs lines 107–114):
the getter does `query_sub.lock().take().unwrap()`, reads the id, and then
re-inserts the cursor.  The `unwrap()` panics when the slot is empty. -/
inductive IdOutcome where
  | ok (sid : SubscriberId) (slot : Slot)
  | panicked

/-- `PyQuerySubscription::id`: take the cursor out of the slot (panicking via
`unwrap()` if the slot is empty), read its `SubscriberId`, put it back. -/
def id (slot : Slot) : IdOutcome :=
  match slot with
  | some sub => .ok sub.sub_id (some sub)
  | none => .panicked

/-- `PyQuerySubscription::unsubscribe` (src/subscription.rs lines 118–120):
`self.inner.lock().take()` — empty the slot, dropping the cursor. -/
def unsubscribe (_slot : Slot) : Slot := none

/-- `PyQuerySubscription::next` (src/subscription.rs lines 122–149).

The call `block_on`s a `tokio::select!` racing (a) take the cursor from the
slot, await the next stream item, re-insert the cursor; against (b)
`check_python_signals_periodically`, which resolves when the host has a
pending signal.  The boolean `interrupt` is the oracle for that race: `true`
means the signal poller completed first.  The poller sleeps one second
before its first check, so the synchronous take-and-test always runs; if the
interrupt then wins while branch (a) is suspended in `.next().await`,
`tokio::select!` drops branch (a)'s future — and with it the cursor that was
taken out of the slot, which is therefore *not* re-inserted.

On a `none` slot the branch returns `PyStopIteration("Stream requires
reset")`.  On a yielded item the cursor is re-inserted and the item is
mapped: `Value` → wrapped success dict, `ErrorMessage` → raised
`PyException`, `ConvexError` → wrapped convexerror dict.  If the stream has
ended (`res` is `None`), the cursor is re-inserted and `res.unwrap()`
panics. -/
def next (slot : Slot) (interrupt : Bool) : NextOutcome × Slot :=
  match slot with
  | none => (.raised (.stopIteration "Stream requires reset"), none)
  | some sub =>
    if interrupt then
      (.raised .interrupted, none)
    else
      match sub.stream with
      | [] => (.panicked, some sub)
      | fr :: rest =>
        let slot' : Slot := some { sub with stream := rest }
        match fr with
        | .value v => (.yielded (value_to_py_wrapped v), slot')
        | .errorMessage e => (.raised (.exception e), slot')
        | .convexError m d => (.yielded (convex_error_to_py_wrapped m d), slot')

end PyQuerySubscription

namespace PyQuerySetSubscription

/-- `PyQuerySetSubscription::exists` (src/subscription.rs lines 193–195):
same pure occupancy read as the single handle. -/
def exists_ (slot : Option (List (SubscriberId × Option FunctionResult))) : Bool :=
  slot.isSome

/-- One entry of the snapshot built by `PyQuerySetSubscription::next`
(src/subscription.rs lines 222–236): `Value` results are wrapped as success,
`ConvexError` results are wrapped as convexerror — but an `ErrorMessage`
result is converted with `value_to_py(Value::String(e))`, i.e. inserted into
the snapshot as a plain string (the source marks this arm with
`// TODO this is wrong!`). -/
def next_entry_py : FunctionResult → PyObjectVal
  | .value v => value_to_py_wrapped v
  | .errorMessage e => value_to_py (.string e)
  | .convexError m d => convex_error_to_py_wrapped m d

/-- One entry of the snapshot built by `PyQuerySetSubscription::anext`
(src/subscription.rs lines 263–279): `Value` results are converted bare (not
wrapped), `ErrorMessage` results are again converted to a plain string (the
source marks this arm `// TODO: this conflates errors with genuine values`),
and `ConvexError` results become a Python tuple `(message, data)`. -/
def anext_entry_py : FunctionResult → PyObjectVal
  | .value v => value_to_py v
  | .errorMessage e => value_to_py (.string e)
  | .convexError m d => .tuple [value_to_py (.string m), value_to_py d]

/-- The snapshot dict built by `PyQuerySetSubscription::next` from the batch
delivered by `QuerySetSubscription::next`: subscribers whose result is
absent are skipped (`continue`), every other entry is converted with
`next_entry_py` and inserted keyed by its `SubscriberId`. -/
def next_snapshot (batch : List (SubscriberId × Option FunctionResult)) :
    List (SubscriberId × PyObjectVal) :=
  batch.filterMap fun p => p.2.map fun fr => (p.1, next_entry_py fr)

/-- The snapshot dict built by `PyQuerySetSubscription::anext`, with the same
omission of absent results. -/
def anext_snapshot (batch : List (SubscriberId × Option FunctionResult)) :
    List (SubscriberId × PyObjectVal) :=
  batch.filterMap fun p => p.2.map fun fr => (p.1, anext_entry_py fr)

end PyQuerySetSubscription

namespace PyConvexClient

/-- `BTreeMapWrapper::from` (src/client/mod.rs lines 63–82): builds the args
`BTreeMap<String, Value>` from a Python dict by `filter_map`: an entry whose
key does not extract to a Python `str`, or whose value fails `py_to_value`,
is silently dropped (`None` — the source marks this with
`// TODO this seems wrong, shouldn't we raise here?`); the surviving pairs
are collected into the map. -/
def btreeMapWrapperFrom (d : List (PyObjectVal × PyObjectVal)) : List (String × Value) :=
  d.foldl
    (fun acc p =>
      match p.1, py_to_value p.2 with
      | .string s, .ok v => btreeInsert s v acc
      | _, _ => acc)
    []

/-- `PyConvexClient::function_result_to_py_result` (src/client/mod.rs lines
107–122): `Value` → wrapped success dict, `ErrorMessage` → raised
`PyException`, `ConvexError` → wrapped convexerror dict. -/
def function_result_to_py_result : FunctionResult → Except PyErr PyObjectVal
  | .value v => .ok (value_to_py_wrapped v)
  | .errorMessage e => .error (.exception e)
  | .convexError m d => .ok (convex_error_to_py_wrapped m d)

/-- `PyConvexClient::query` (src/client/mod.rs lines 193–215), with the
transport abstracted: `transport_result` is the `FunctionResult` the
underlying `ConvexClient::query` would produce for the marshalled args, and
`interrupt` is the oracle for the `tokio::select!` race against
`check_python_signals_periodically` (losing the race yields a recoverable
`Err`, modelled `PyErr.interrupted`).  The args dict is marshalled with
`BTreeMapWrapper::from`, which never fails.  `mutation` and `action`
(lines 219–267) are textually identical modulo the client method called. -/
def query (args : List (PyObjectVal × PyObjectVal)) (transport_result : FunctionResult)
    (interrupt : Bool) : Except PyErr PyObjectVal :=
  let _issued_args := btreeMapWrapperFrom args
  if interrupt then .error .interrupted
  else function_result_to_py_result transport_result

/-- The args actually issued to the transport by a one-shot call or by
`subscribe` (src/client/mod.rs lines 170–172, 200–202, 226–228, 252–254):
exactly the output of `BTreeMapWrapper::from`. -/
def issuedArgs (args : List (PyObjectVal × PyObjectVal)) : List (String × Value) :=
  btreeMapWrapperFrom args

/-- Outcome of `set_auth` / `set_admin_auth`: both return `()` on success;
they have no error channel. -/
inductive SetAuthOutcome where
  | completed
  | panicked
  deriving DecidableEq

/-- `PyConvexClient::set_auth` (src/client/mod.rs lines 283–291): races
`client.set_auth(token)` against the signal poller — but the poller arm is
`_ = check_python_signals_periodically() => panic!()`: when the interrupt
wins, the method panics instead of returning a recoverable error. -/
def set_auth (_token : Option String) (interrupt : Bool) : SetAuthOutcome :=
  if interrupt then .panicked else .completed

/-- `PyConvexClient::set_admin_auth` (src/client/mod.rs lines 297–305): same
`panic!()` arm on the interrupt side of the race. -/
def set_admin_auth (_token : String) (interrupt : Bool) : SetAuthOutcome :=
  if interrupt then .panicked else .completed

end PyConvexClient

/-!
## Well-formedness of `convex::Value`

Invariants every real `convex::Value` satisfies by construction: `Int64`
holds an `i64` (range-checked), and `Object` holds a `BTreeMap`, whose
association list has strictly sorted keys.
-/

/-- `keysSorted fs`: every key is `strLt`-below all later keys (the
`BTreeMap` iteration-order invariant). -/
def keysSorted : List (String × Value) → Bool
  | [] => true
  | (k, _) :: rest => rest.all (fun p => strLt k p.1) && keysSorted rest

mutual

/-- A `Value` that a real `convex::Value` can represent: `Int64` payloads in
`i64` range, `Object` field lists strictly key-sorted, recursively. -/
def wf : Value → Bool
  | .null => true
  | .int64 n => inI64Range n
  | .float64 _ => true
  | .boolean _ => true
  | .string _ => true
  | .bytes _ => true
  | .array xs => wf_list xs
  | .object fs => keysSorted fs && wf_fields fs

/-- `wf` on every element of an `Array`. -/
def wf_list : List Value → Bool
  | [] => true
  | x :: xs => wf x && wf_list xs

/-- `wf` on every field value of an `Object`. -/
def wf_fields : List (String × Value) → Bool
  | [] => true
  | (_, v) :: fs => wf v && wf_fields fs

end

/-!
## Order and insertion lemmas
-/

theorem listCharLt_asymm : ∀ as bs, listCharLt as bs = true → listCharLt bs as = false
  | [], [] => by simp [listCharLt]
  | [], _ :: _ => by simp [listCharLt]
  | _ :: _, [] => by simp [listCharLt]
  | a :: as, b :: bs => by
    simp only [listCharLt]
    by_cases hab : a.toNat < b.toNat
    · simp only [hab, if_pos]
      intro _
      have hba : ¬ b.toNat < a.toNat := Nat.lt_asymm hab
      simp [hba, hab]
    · by_cases hba : b.toNat < a.toNat
      · simp [hab, hba]
      · simp only [hab, hba, if_neg, if_false]
        intro h
        simpa [hab, hba] using listCharLt_asymm as bs h

theorem listCharLt_eq_of_not : ∀ as bs, listCharLt as bs = false → listCharLt bs as = false →
    as = bs
  | [], [] => by simp
  | [], _ :: _ => by simp [listCharLt]
  | _ :: _, [] => by simp [listCharLt]
  | a :: as, b :: bs => by
    simp only [listCharLt]
    by_cases hab : a.toNat < b.toNat
    · simp [hab]
    · by_cases hba : b.toNat < a.toNat
      · simp [hab, hba]
      · simp only [hab, hba, if_neg, if_false]
        intro h1 h2
        have hval : a.toNat = b.toNat := Nat.le_antisymm (Nat.not_lt.mp hba) (Nat.not_lt.mp hab)
        have hc : a = b := Char.ext (UInt32.ext hval)
        have : as = bs := listCharLt_eq_of_not as bs h1 h2
        simp [hc, this]

theorem strLt_asymm (a b : String) (h : strLt a b = true) : strLt b a = false :=
  listCharLt_asymm _ _ h

theorem strLt_eq_of_not (a b : String) (h1 : strLt a b = false) (h2 : strLt b a = false) :
    a = b := by
  cases a with
  | mk da =>
    cases b with
    | mk db =>
      have : da = db := listCharLt_eq_of_not da db h1 h2
      simp [this]

/-- Inserting a key greater than every key already present appends at the
end. -/
theorem btreeInsert_append (k : String) (v : Value) :
    ∀ acc, (∀ p ∈ acc, strLt p.1 k = true) → btreeInsert k v acc = acc ++ [(k, v)]
  | [], _ => rfl
  | (k', v') :: rest, h => by
    have hk' : strLt k' k = true := h (k', v') (List.mem_cons_self _ _)
    have hkk' : strLt k k' = false := strLt_asymm _ _ hk'
    simp only [btreeInsert, hkk', hk', if_false, if_true, Bool.false_eq_true, if_neg,
      List.cons_append, List.cons.injEq, true_and]
    exact btreeInsert_append k v rest fun p hp => h p (List.mem_cons_of_mem _ hp)

/-- The inserted pair is in the result. -/
theorem mem_btreeInsert_self (k : String) (v : Value) :
    ∀ l, (k, v) ∈ btreeInsert k v l
  | [] => List.mem_singleton.mpr rfl
  | (k', v') :: rest => by
    simp only [btreeInsert]
    by_cases h1 : strLt k k' = true
    · simp [h1]
    · by_cases h2 : strLt k' k = true
      · simp only [h1, h2, if_true, if_false, Bool.false_eq_true, if_neg]
        exact List.mem_cons_of_mem _ (mem_btreeInsert_self k v rest)
      · simp [h1, h2]

/-- Pairs with a different key survive insertion. -/
theorem mem_btreeInsert_of_ne (k : String) (v : Value) (s : String) (w : Value)
    (hne : s ≠ k) : ∀ l, (s, w) ∈ l → (s, w) ∈ btreeInsert k v l
  | [], h => absurd h (List.not_mem_nil _)
  | (k', v') :: rest, h => by
    simp only [btreeInsert]
    by_cases h1 : strLt k k' = true
    · simp only [h1, if_true]
      exact List.mem_cons_of_mem _ h
    · by_cases h2 : strLt k' k = true
      · simp only [h1, h2, if_true, if_false, Bool.false_eq_true, if_neg]
        rcases List.mem_cons.mp h with h3 | h3
        · exact List.mem_cons.mpr (Or.inl h3)
        · exact List.mem_cons_of_mem _ (mem_btreeInsert_of_ne k v s w hne rest h3)
      · have hkk : k = k' :=
          strLt_eq_of_not k k' (Bool.not_eq_true _ ▸ h1) (Bool.not_eq_true _ ▸ h2)
        simp only [h1, h2, if_false, Bool.false_eq_true, if_neg]
        rcases List.mem_cons.mp h with h3 | h3
        · exact absurd (congrArg Prod.fst h3) (by simpa [hkk] using hne)
        · exact List.mem_cons_of_mem _ h3

/-- In a `keysSorted` list every key in a preceding segment is below the key
of any element of the following segment. -/
theorem keysSorted_append_head (k : String) (v : Value) (fs : List (String × Value)) :
    ∀ acc, keysSorted (acc ++ (k, v) :: fs) = true → ∀ p ∈ acc, strLt p.1 k = true
  | [], _, p, hp => absurd hp (List.not_mem_nil _)
  | (k0, v0) :: acc, h, p, hp => by
    simp only [List.cons_append, keysSorted, Bool.and_eq_true, List.all_eq_true] at h
    rcases List.mem_cons.mp hp with h3 | h3
    · subst h3
      exact h.1 (k, v) (List.mem_append.mpr (Or.inr (List.mem_cons_self _ _)))
    · exact keysSorted_append_head k v fs acc h.2 p h3

/-!
## Round-trip of well-formed Values
-/

mutual

/-- `py_to_value` inverts `value_to_py` on every well-formed `Value`. -/
theorem rt_val : ∀ (v : Value), wf v = true → py_to_value (value_to_py v) = .ok v
  | .null, _ => rfl
  | .int64 n, h => by
    simp only [wf] at h
    simp [value_to_py, py_to_value, h]
  | .float64 q, _ => rfl
  | .boolean b, _ => rfl
  | .string s, _ => rfl
  | .bytes bs, _ => rfl
  | .array xs, h => by
    simp only [wf] at h
    simp [value_to_py, py_to_value, rt_list xs h]
  | .object fs, h => by
    simp only [wf, Bool.and_eq_true] at h
    have := rt_fields fs [] h.2 (by simpa using h.1)
    simp only [List.nil_append] at this
    simp [value_to_py, py_to_value, this]

/-- Elementwise round-trip for `Array` payloads. -/
theorem rt_list : ∀ (xs : List Value), wf_list xs = true →
    py_list_to_values (value_list_to_py xs) = .ok xs
  | [], _ => rfl
  | x :: xs, h => by
    simp only [wf_list, Bool.and_eq_true] at h
    simp [value_list_to_py, py_list_to_values, rt_val x h.1, rt_list xs h.2]

/-- Folding the dict entries produced from a sorted field list back through
`py_dict_to_object` rebuilds the field list behind the accumulator. -/
theorem rt_fields : ∀ (fs acc : List (String × Value)),
    wf_fields fs = true → keysSorted (acc ++ fs) = true →
    py_dict_to_object (object_to_py_entries fs) acc = .ok (acc ++ fs)
  | [], acc, _, _ => by simp [object_to_py_entries, py_dict_to_object]
  | (k, v) :: fs, acc, h, hs => by
    simp only [wf_fields, Bool.and_eq_true] at h
    have hins : btreeInsert k v acc = acc ++ [(k, v)] :=
      btreeInsert_append k v acc (keysSorted_append_head k v fs acc hs)
    have hs' : keysSorted ((acc ++ [(k, v)]) ++ fs) = true := by
      simpa [List.append_assoc] using hs
    have := rt_fields fs (acc ++ [(k, v)]) h.2 hs'
    simp only [object_to_py_entries, py_dict_to_object, rt_val v h.1, py_to_value, hins, this,
      List.append_assoc, List.singleton_append]

end

/-!
## Conversion inversion lemmas
-/

/-- The only host value that converts to a `String` Value is a Python `str`:
booleans become `Boolean`, ints and floats become `Float64`, and so on. -/
theorem py_to_value_ok_string (p : PyObjectVal) (t : String)
    (h : py_to_value p = .ok (.string t)) : p = .string t := by
  cases p with
  | string s =>
    simp only [py_to_value, Except.ok.injEq, Value.string.injEq] at h
    simp [h]
  | convexInt64 n =>
    by_cases hr : inI64Range n = true
    · simp [py_to_value, hr] at h
    · simp [py_to_value, hr] at h
  | list xs =>
    cases hxs : py_list_to_values xs with
    | ok vs => simp [py_to_value, hxs] at h
    | error e => simp [py_to_value, hxs] at h
  | dict es =>
    cases hes : py_dict_to_object es [] with
    | ok fs => simp [py_to_value, hes] at h
    | error e => simp [py_to_value, hes] at h
  | none => simp [py_to_value] at h
  | bool b => simp [py_to_value] at h
  | int n => simp [py_to_value] at h
  | float q => simp [py_to_value] at h
  | bytes bs => simp [py_to_value] at h
  | tuple xs => simp [py_to_value] at h

/-- A successful list conversion converts elementwise and in order: a `bool`
at index `i` of the input yields `Boolean` at index `i` of the output. -/
theorem py_list_to_values_bool_at :
    ∀ (xs : List PyObjectVal) (vs : List Value), py_list_to_values xs = .ok vs →
    ∀ (i : Nat) (b : Bool), xs[i]? = some (.bool b) → vs[i]? = some (.boolean b)
  | [], vs, h => by
    simp only [py_list_to_values] at h
    cases h
    intro i b hib
    simp at hib
  | x :: xs, vs, h => by
    simp only [py_list_to_values] at h
    cases hx : py_to_value x with
    | error e => simp [hx] at h
    | ok v =>
      cases hxs : py_list_to_values xs with
      | error e => simp [hx, hxs] at h
      | ok vs' =>
        simp only [hx, hxs] at h
        cases h
        intro i b hib
        cases i with
        | zero =>
          simp only [List.getElem?_cons_zero, Option.some.injEq] at hib
          subst hib
          simp only [py_to_value, Except.ok.injEq] at hx
          simp [← hx]
        | succ j =>
          simp only [List.getElem?_cons_succ] at hib ⊢
          exact py_list_to_values_bool_at xs vs' hxs j b hib

/-- If every entry of a dict with key `s` carries the boolean `b`, and at
least one such entry exists (in the remaining entry list or already in the
accumulator), the converted object maps `s` to `Boolean b`. -/
theorem py_dict_to_object_bool_mem :
    ∀ (es : List (PyObjectVal × PyObjectVal)) (acc fs : List (String × Value))
      (s : String) (b : Bool),
      py_dict_to_object es acc = .ok fs →
      (∀ p ∈ es, p.1 = .string s → p.2 = .bool b) →
      ((.string s, .bool b) ∈ es ∨ (s, .boolean b) ∈ acc) →
      (s, Value.boolean b) ∈ fs
  | [], acc, fs, s, b, h, _, hd => by
    simp only [py_dict_to_object] at h
    cases h
    rcases hd with hd | hd
    · exact absurd hd (List.not_mem_nil _)
    · exact hd
  | (k, v) :: es, acc, fs, s, b, h, hall, hd => by
    simp only [py_dict_to_object] at h
    cases hv : py_to_value v with
    | error e => simp [hv] at h
    | ok vv =>
      cases hk : py_to_value k with
      | error e => simp [hv, hk] at h
      | ok kk =>
        cases kk with
        | string t =>
          simp only [hv, hk] at h
          have hkstr : k = .string t := py_to_value_ok_string k t hk
          have hall' : ∀ p ∈ es, p.1 = .string s → p.2 = .bool b :=
            fun p hp => hall p (List.mem_cons_of_mem _ hp)
          refine py_dict_to_object_bool_mem es (btreeInsert t vv acc) fs s b h hall' ?_
          rcases hd with hd | hd
          · rcases List.mem_cons.mp hd with hd1 | hd1
            · -- the head entry is the one carrying the boolean
              have hk' : PyObjectVal.string s = k := congrArg Prod.fst hd1
              have hv' : PyObjectVal.bool b = v := congrArg Prod.snd hd1
              have hts : t = s := (PyObjectVal.string.inj (hk'.trans hkstr)).symm
              have hvv : vv = .boolean b := by
                rw [← hv'] at hv
                simpa [py_to_value] using hv.symm
              right
              subst hts
              rw [hvv]
              exact mem_btreeInsert_self _ _ acc
            · exact Or.inl hd1
          · by_cases hts : t = s
            · -- an entry keyed `s` is being inserted now; it carries the boolean
              have hk' : k = .string s := hts ▸ hkstr
              have hv' : v = .bool b := hall (k, v) (List.mem_cons_self _ _) hk'
              have hvv : vv = .boolean b := by
                rw [hv'] at hv
                simpa [py_to_value] using hv.symm
              right
              subst hts
              rw [hvv]
              exact mem_btreeInsert_self _ _ acc
            · exact Or.inr (mem_btreeInsert_of_ne t vv s (.boolean b)
                (fun hh => hts hh.symm) acc hd)
        | null => simp [hv, hk] at h
        | int64 n => simp [hv, hk] at h
        | float64 q => simp [hv, hk] at h
        | boolean b0 => simp [hv, hk] at h
        | bytes bs => simp [hv, hk] at h
        | array xs => simp [hv, hk] at h
        | object fs0 => simp [hv, hk] at h

/-!
## Claim theorems
-/

/-- C1: for every Value built from the variants Null, Int64, Float64,
Boolean, String, Bytes, Array and Object (i.e. every value a real
`convex::Value` can hold — `wf` records the `i64`-range and
`BTreeMap`-sortedness invariants that hold by construction), converting to a
host value with `value_to_py` and back with `py_to_value` yields the value
again. -/
theorem C1_value_roundtrip (v : Value) (h : wf v = true) :
    py_to_value (value_to_py v) = .ok v :=
  rt_val v h

/-- Witness for C1 at a concrete nested Value. -/
theorem C1_value_roundtrip_witness :
    wf (.object [("a", .int64 5), ("b", .array [.boolean true, .null]),
      ("c", .string "x")]) = true ∧
    py_to_value (value_to_py (.object [("a", .int64 5), ("b", .array [.boolean true, .null]),
      ("c", .string "x")])) =
      .ok (.object [("a", .int64 5), ("b", .array [.boolean true, .null]),
        ("c", .string "x")]) :=
  ⟨by decide, C1_value_roundtrip _ (by decide)⟩

/-- C2: contrary to the claim, the Subscription Set Handle's snapshot
mapping converts an `ErrorMessage` outcome into a plain `String` *success*
value: in `next` it is inserted as `value_to_py(Value::String(e))`, and in
`anext` the resulting entry is indistinguishable from a genuine `String`
success (both arms are marked wrong by the source's own TODO comments). -/
theorem C2_set_snapshot_conflates_error :
    PyQuerySetSubscription.next_snapshot [(0, some (.errorMessage "boom"))] =
      [(0, PyObjectVal.string "boom")] ∧
    PyQuerySetSubscription.anext_snapshot [(0, some (.errorMessage "boom"))] =
      PyQuerySetSubscription.anext_snapshot [(0, some (.value (.string "boom")))] :=
  ⟨rfl, rfl⟩

/-- C3 counterexample: a mapping with the non-string key `1` does not convert
to a `Map` — it fails with the "Bad key for Convex object" error (the Value
model of this crate has no `Map` variant at all). -/
theorem C3_nonstring_key_fails :
    py_to_value (.dict [(.int 1, .string "x")]) =
      .error (.exception "Bad key for Convex object: 1") := rfl

/-- C3 amended: `{"a": 1}` converts to `Object({"a": Float64(1.0)})`, and a
mapping with a non-string key such as `{1: "x"}` fails with a "Bad key for
Convex object" marshalling error instead of converting to a `Map`. -/
theorem C3_object_and_bad_key :
    py_to_value (.dict [(.string "a", .int 1)]) =
      .ok (.object [("a", .float64 1)]) ∧
    py_to_value (.dict [(.int 1, .string "x")]) =
      .error (.exception "Bad key for Convex object: 1") :=
  ⟨rfl, rfl⟩

/-- C4: contrary to the claim, `BTreeMapWrapper::from` silently drops an args
entry whose value fails marshalling (here `"a"` mapped to a tuple) and an
entry with a non-string key, and the one-shot call then proceeds with the
remaining args and succeeds instead of failing with a marshalling error. -/
theorem C4_args_entry_silently_dropped :
    PyConvexClient.btreeMapWrapperFrom
        [(.string "a", .tuple [.int 1]), (.string "b", .int 2)] = [("b", .float64 2)] ∧
    PyConvexClient.btreeMapWrapperFrom [(.int 1, .string "x")] = [] ∧
    PyConvexClient.query [(.string "a", .tuple [.int 1]), (.string "b", .int 2)]
        (.value .null) false = .ok (value_to_py_wrapped .null) :=
  ⟨rfl, rfl, rfl⟩

/-- C5: contrary to the claim, when the signal poller wins the race during an
in-flight `next` on an Open handle, the cursor that was taken out of the
slot is dropped with the cancelled `tokio::select!` branch and the slot is
left empty, so the subsequent `next` raises `StopIteration("Stream requires
reset")` instead of yielding: the handle is not reusable. -/
theorem C5_interrupt_empties_slot :
    PyQuerySubscription.next (some ⟨0, [.value .null]⟩) true =
      (.raised .interrupted, none) ∧
    PyQuerySubscription.next none false =
      (.raised (.stopIteration "Stream requires reset"), none) :=
  ⟨rfl, rfl⟩

/-- C6: on any handle in the Open state, `unsubscribe()` followed by `next()`
raises exactly `StopIteration("Stream requires reset")` (never the
exhausted/end-of-stream signal, and the model is a total function, so no
hang), and leaves the slot empty. -/
theorem C6_unsubscribe_then_next (sub : QuerySubscription) (interrupt : Bool) :
    PyQuerySubscription.next (PyQuerySubscription.unsubscribe (some sub)) interrupt =
      (.raised (.stopIteration "Stream requires reset"), none) := rfl

/-- C7 counterexample: contrary to the claim, `exists()` returns `false` in
the Advancing state (the slot is empty while an advance is in flight, and
`exists()` only reads occupancy), and `id()` on an Unsubscribed handle
panics (`take().unwrap()` on an empty slot) rather than returning the
SubscriberId. -/
theorem C7_exists_id_claim_false :
    PyQuerySubscription.exists_ (slotOf (.advancing ⟨0, []⟩)) = false ∧
    PyQuerySubscription.id (slotOf .unsubscribed) = .panicked :=
  ⟨rfl, rfl⟩

/-- C7 amended: `exists()` is a pure read of the slot's occupancy — `true`
exactly in the Open state, `false` in the Advancing and Unsubscribed states
(likewise for the Set Handle) — and `id()` takes the cursor out of the slot
and re-inserts it, returning the SubscriberId when the slot is occupied and
panicking (`unwrap()` of an empty slot) in the Advancing and Unsubscribed
states. -/
theorem C7_exists_id_amended :
    (∀ sub : QuerySubscription, PyQuerySubscription.exists_ (slotOf (.open_ sub)) = true) ∧
    (∀ sub : QuerySubscription, PyQuerySubscription.exists_ (slotOf (.advancing sub)) = false) ∧
    PyQuerySubscription.exists_ (slotOf .unsubscribed) = false ∧
    (∀ batch : List (SubscriberId × Option FunctionResult),
      PyQuerySetSubscription.exists_ (some batch) = true) ∧
    PyQuerySetSubscription.exists_ none = false ∧
    (∀ sub : QuerySubscription,
      PyQuerySubscription.id (slotOf (.open_ sub)) = .ok sub.sub_id (some sub)) ∧
    (∀ sub : QuerySubscription,
      PyQuerySubscription.id (slotOf (.advancing sub)) = .panicked) ∧
    PyQuerySubscription.id (slotOf .unsubscribed) = .panicked :=
  ⟨fun _ => rfl, fun _ => rfl, rfl, fun _ => rfl, rfl, fun _ => rfl, fun _ => rfl, rfl⟩

/-- C8: `py_to_value` converts every host bool to `Boolean` — at top level,
at every index of a converted list, and at every (uniquely-keyed) dict entry
carrying a bool — never to `Int64` or `Float64`. -/
theorem C8_bool_always_boolean :
    (∀ b : Bool, py_to_value (.bool b) = .ok (.boolean b)) ∧
    (∀ (xs : List PyObjectVal) (vs : List Value) (i : Nat) (b : Bool),
      py_to_value (.list xs) = .ok (.array vs) → xs[i]? = some (.bool b) →
      vs[i]? = some (.boolean b)) ∧
    (∀ (es : List (PyObjectVal × PyObjectVal)) (fs : List (String × Value))
      (s : String) (b : Bool),
      py_to_value (.dict es) = .ok (.object fs) →
      (.string s, .bool b) ∈ es →
      (∀ p ∈ es, p.1 = .string s → p.2 = .bool b) →
      (s, Value.boolean b) ∈ fs) := by
  refine ⟨fun _ => rfl, ?_, ?_⟩
  · intro xs vs i b h hib
    cases hx : py_list_to_values xs with
    | error e => simp [py_to_value, hx] at h
    | ok vs' =>
      simp only [py_to_value, hx, Except.ok.injEq, Value.array.injEq] at h
      subst h
      exact py_list_to_values_bool_at xs vs' hx i b hib
  · intro es fs s b h hmem hall
    cases he : py_dict_to_object es [] with
    | error e => simp [py_to_value, he] at h
    | ok fs' =>
      simp only [py_to_value, he, Except.ok.injEq, Value.object.injEq] at h
      subst h
      exact py_dict_to_object_bool_mem es [] fs' s b he hall (Or.inl hmem)

/-- Witness for C8 at concrete inputs: a bool nested in a list and a bool
dict value both survive as `Boolean`. -/
theorem C8_bool_always_boolean_witness :
    ([Value.float64 1, Value.boolean true])[1]? = some (Value.boolean true) ∧
    ("flag", Value.boolean true) ∈ [("flag", Value.boolean true)] :=
  ⟨C8_bool_always_boolean.2.1 [.int 1, .bool true] [.float64 1, .boolean true] 1 true rfl rfl,
   C8_bool_always_boolean.2.2 [(.string "flag", .bool true)] [("flag", .boolean true)]
     "flag" true rfl (List.mem_singleton.mpr rfl)
     (by
       intro p hp _
       rw [List.mem_singleton.mp hp])⟩

/-- C9: the wrapper value `ConvexInt64(9223372036854775807)` converts exactly
to `Int64(9223372036854775807)`, while the plain host integer `7` converts
to `Float64(7.0)` and not to `Int64(7)`. -/
theorem C9_int64_fidelity :
    py_to_value (.convexInt64 9223372036854775807) =
      .ok (.int64 9223372036854775807) ∧
    py_to_value (.int 7) = .ok (.float64 7) ∧
    py_to_value (.int 7) ≠ .ok (.int64 7) := by
  refine ⟨rfl, rfl, ?_⟩
  intro h
  simp [py_to_value, intToF64] at h

/-- C10: contrary to the claim, when the interrupt poller wins the race
inside `set_auth` or `set_admin_auth` the method hits the `panic!()` arm
instead of unwinding with a recoverable Interrupted error — unlike `query`,
whose interrupt arm produces a recoverable `Err`. -/
theorem C10_set_auth_panics :
    PyConvexClient.set_auth (some "token") true = .panicked ∧
    PyConvexClient.set_admin_auth "deploy-key" true = .panicked ∧
    PyConvexClient.query [] (.value .null) true = .error .interrupted :=
  ⟨rfl, rfl, rfl⟩
